import Mathlib

/-!
Shallow embedding of the `simple-dht-node` repository (routing table,
validator, message classifier, compact encodings) together with theorems
settling the specification claims. Python `datetime` values are modelled
as integers counting microseconds (`datetime`'s resolution); Python byte
strings as `List Nat`; the insertion-ordered Python `dict` backing the
routing table as an association list.
-/

/-- Data container for torrent peers / info hashes
(`data_structures.Peer`). -/
structure Peer where
  info_hash : String
  ip : String
  port : Int
deriving DecidableEq, Repr

/-- Base data container for DHT nodes (`data_structures.Node`). -/
structure Node where
  id : String
  ip : String
  port : Int
deriving DecidableEq, Repr

/-- Data container for nodes stored in the routing table
(`data_structures.StoredNode`); `added`/`communicated` are times in
microseconds. -/
structure StoredNode where
  id : String
  ip : String
  port : Int
  added : Int
  communicated : Option Int
  distance : Int
  peers : Finset Peer
deriving DecidableEq

/-- `timedelta(minutes=m)` in microseconds. -/
def timedeltaMinutes (m : Int) : Int := m * 60000000

/-- Length of the common character prefix of two strings
(`os.path.commonprefix` on a two-element list). -/
def commonPrefixLen : List Char → List Char → Nat
  | a :: as, b :: bs => if a = b then commonPrefixLen as bs + 1 else 0
  | _, _ => 0

/-- `utils.calculate_distance`: the prefix distance
`40 - len(commonprefix([id_1, id_2]))` (a Python `int`, so `Int`). -/
def calculate_distance (id_1 : String) (id_2 : String) : Int :=
  40 - commonPrefixLen id_1.toList id_2.toList

/-- `communicated or self.added` — a `datetime` is always truthy, so this
is `communicated` when present, else `added`. -/
def StoredNode.startTime (s : StoredNode) : Int :=
  s.communicated.getD s.added

/-- `StoredNode.is_questionable`: last contact more than 5 minutes before
`now` (`datetime.now() > start_time + timedelta(minutes=5)`). -/
def StoredNode.is_questionable (s : StoredNode) (now : Int) : Bool :=
  s.startTime + timedeltaMinutes 5 < now

/-- `StoredNode.is_unresponsive`: last contact more than 15 minutes before
`now` (`datetime.now() > start_time + timedelta(minutes=15)`). -/
def StoredNode.is_unresponsive (s : StoredNode) (now : Int) : Bool :=
  s.startTime + timedeltaMinutes 15 < now

/-- The routing table: base id plus the insertion-ordered dictionary
`_nodes` (modelled as an association list with unique keys). -/
structure RoutingTable where
  base_id : String
  nodes : List (String × StoredNode)
deriving DecidableEq

/-- `node_id in self._nodes` for the association-list dictionary. -/
def dictContains (l : List (String × StoredNode)) (k : String) : Bool :=
  l.any (fun kv => kv.1 = k)

/-- `self._nodes[k]` as an optional read. -/
def lookupKey (l : List (String × StoredNode)) (k : String) : Option StoredNode :=
  (l.find? (fun kv => kv.1 = k)).map (fun kv => kv.2)

/-- `self._nodes[k] = v`: replace in place when the key is present
(Python dicts keep the key's position), append otherwise. -/
def setKey (l : List (String × StoredNode)) (k : String) (v : StoredNode) :
    List (String × StoredNode) :=
  if dictContains l k then
    l.map (fun kv => if kv.1 = k then (k, v) else kv)
  else
    l ++ [(k, v)]

/-- In-place mutation of the stored value at key `k`
(e.g. `self._nodes[node.id].communicated = communicated`). -/
def updateValue (l : List (String × StoredNode)) (k : String)
    (f : StoredNode → StoredNode) : List (String × StoredNode) :=
  l.map (fun kv => if kv.1 = k then (kv.1, f kv.2) else kv)

/-- `RoutingTable.save_node(node, communicated)`, with `now` the value of
`datetime.now()` at the call.  Mirrors the source: the base id is skipped;
a present id with a (truthy) `communicated` gets only its communication
time updated; otherwise the distance is computed and a fresh `StoredNode`
is written whenever `distance <= 36 or len(self._nodes) < 7`. -/
def save_node (t : RoutingTable) (node : Node) (communicated : Option Int)
    (now : Int) : RoutingTable :=
  if node.id ≠ t.base_id then
    if dictContains t.nodes node.id && communicated.isSome then
      let ns := updateValue t.nodes node.id
        fun s => { s with communicated := communicated }
      { t with nodes := ns }
    else
      let distance := calculate_distance t.base_id node.id
      if distance ≤ 36 ∨ t.nodes.length < 7 then
        let fresh : StoredNode :=
          { id := node.id, ip := node.ip, port := node.port,
            added := now, communicated := communicated,
            distance := distance, peers := ∅ }
        { t with nodes := setKey t.nodes node.id fresh }
      else t
  else t

/-- `RoutingTable.save_peer(peer, node_id)`: add the peer to the stored
node's peer set when the node id is present. -/
def save_peer (t : RoutingTable) (peer : Peer) (node_id : String) :
    RoutingTable :=
  if dictContains t.nodes node_id then
    let ns := updateValue t.nodes node_id
      fun s => { s with peers := insert peer s.peers }
    { t with nodes := ns }
  else t

/-- `RoutingTable.delete_unresponsive_nodes`, with `now` the evaluation
time: keep exactly the entries that are not unresponsive. -/
def delete_unresponsive_nodes (t : RoutingTable) (now : Int) : RoutingTable :=
  { t with nodes := t.nodes.filter (fun kv => !(kv.2.is_unresponsive now)) }

/-- `RoutingTable.get_all_nodes`: snapshot of `self._nodes.values()`. -/
def get_all_nodes (t : RoutingTable) : List StoredNode :=
  t.nodes.map (fun kv => kv.2)

/-- The sort key relation of `get_closest_nodes`: ordered by
`calculate_distance(node_id, n.id)`. -/
def distRel (node_id : String) (a b : StoredNode) : Prop :=
  calculate_distance node_id a.id ≤ calculate_distance node_id b.id

instance (node_id : String) : DecidableRel (distRel node_id) :=
  fun a b => inferInstanceAs
    (Decidable (calculate_distance node_id a.id ≤ calculate_distance node_id b.id))

instance (node_id : String) : IsTotal StoredNode (distRel node_id) :=
  ⟨fun _ _ => le_total _ _⟩

instance (node_id : String) : IsTrans StoredNode (distRel node_id) :=
  ⟨fun _ _ _ => le_trans⟩

/-- `RoutingTable.get_closest_nodes(node_id)`: the stored nodes sorted by
distance to `node_id` (a stable sort, like Python's `sorted`), truncated
to the first 7. -/
def get_closest_nodes (t : RoutingTable) (node_id : String) :
    List StoredNode :=
  (List.insertionSort (distRel node_id) (get_all_nodes t)).take 7

/-- `utils.is_valid_node(node, base_id)`. -/
def is_valid_node (node : Node) (base_id : String) : Bool :=
  if node.ip = "0.0.0.0" then false
  else if node.port = 0 || node.port > 65535 then false
  else if node.id.length ≠ 40 then false
  else if node.id ≠ base_id then
    if calculate_distance node.id base_id < 30 then false else true
  else true

deriving instance DecidableEq for Except

/-! ### Byte strings, hex rendering, bencoded values -/

/-- Render a hex digit value as a lowercase character (as Python's
`bytes.hex` does). -/
def hexDigitChar (n : Nat) : Char :=
  if n < 10 then Char.ofNat (48 + n) else Char.ofNat (87 + n)

/-- One byte as two lowercase hex characters. -/
def byteToHexChars (b : Nat) : List Char :=
  [hexDigitChar (b / 16), hexDigitChar (b % 16)]

/-- The sixteen lowercase hex digit characters. -/
def lowerHexChars : List Char :=
  (List.range 16).map hexDigitChar

/-- `bytes.hex()`: every byte rendered as two lowercase hex characters. -/
def bytesToHexStr (bs : List Nat) : String :=
  String.mk (bs.flatMap byteToHexChars)

/-- Value of one hex character, as accepted by `bytes.fromhex`
(both cases); `none` on a non-hex character. -/
def hexCharVal? (c : Char) : Option Nat :=
  if 48 ≤ c.toNat ∧ c.toNat ≤ 57 then some (c.toNat - 48)
  else if 97 ≤ c.toNat ∧ c.toNat ≤ 102 then some (c.toNat - 87)
  else if 65 ≤ c.toNat ∧ c.toNat ≤ 70 then some (c.toNat - 55)
  else none

/-- `bytes.fromhex` on a run of hex digits: pairs of hex characters to
bytes, `none` on a non-hex character or an odd count. -/
def bytesFromHex? : List Char → Option (List Nat)
  | [] => some []
  | [_] => none
  | c1 :: c2 :: rest =>
    match hexCharVal? c1, hexCharVal? c2, bytesFromHex? rest with
    | some h, some l, some bs => some ((16 * h + l) :: bs)
    | _, _, _ => none

/-- `str.encode("ascii")`: the character codes, provided all are ASCII. -/
def asciiEncode? (s : String) : Option (List Nat) :=
  if s.toList.all (fun c => c.toNat < 128) then
    some (s.toList.map Char.toNat)
  else none

/-- `struct.pack` fixed-width `s` field: truncate to `k` bytes or pad
with NUL bytes to exactly `k`. -/
def padBytes (k : Nat) (bs : List Nat) : List Nat :=
  bs.take k ++ List.replicate (k - bs.length) 0

/-- `Node.compact_info`: `struct.pack("!20s4sH", bytes.fromhex(id),
ip.encode("ascii"), port)`.  Errors model the Python exceptions
(`ValueError` from `fromhex`, `UnicodeEncodeError` from `encode`,
`struct.error` for a port outside `0..65535`). -/
def Node.compact_info (n : Node) : Except Unit (List Nat) :=
  match bytesFromHex? n.id.toList with
  | none => .error ()
  | some idb =>
    match asciiEncode? n.ip with
    | none => .error ()
    | some ipb =>
      if 0 ≤ n.port ∧ n.port ≤ 65535 then
        .ok (padBytes 20 idb ++ padBytes 4 ipb ++
          [n.port.toNat / 256, n.port.toNat % 256])
      else .error ()

/-- `utils.create_compact_node_info`: concatenation of the nodes' compact
forms. -/
def create_compact_node_info (nodes : List Node) : Except Unit (List Nat) :=
  (nodes.mapM Node.compact_info).map List.flatten

/-- `str(ip_address(bytes))` for 4 bytes: the dotted-quad decimal
rendering. -/
def ipv4Str (bs : List Nat) : String :=
  String.intercalate "." (bs.map (fun b => toString b))

/-- Decode one 26-byte record `(20 id | 4 ip | 2 port big-endian)` as
`struct.unpack("!20s4sH")` plus the `.hex()` / `ip_address` renderings. -/
def decodeCompactNode (chunk : List Nat) : Node :=
  { id := bytesToHexStr (chunk.take 20),
    ip := ipv4Str ((chunk.drop 20).take 4),
    port := ((256 * ((chunk.drop 24).getD 0 0) + (chunk.drop 24).getD 1 0 : Nat) : Int) }

/-- `utils.parse_compact_node_info`: consume the input 26 bytes at a
time (`range(len(data) // 26)`), discarding any trailing partial
record. -/
def parse_compact_node_info (data : List Nat) : List Node :=
  (List.range (data.length / 26)).map
    (fun i => decodeCompactNode ((data.drop (26 * i)).take 26))

/-- Decoded bencode values: byte strings, integers, lists and
dictionaries with byte-string keys. -/
inductive Bval where
  | str : List Nat → Bval
  | num : Int → Bval
  | list : List Bval → Bval
  | dict : List (List Nat × Bval) → Bval

/-- ASCII bytes of a literal (models Python `b"..."` literals). -/
def asciiBytes (s : String) : List Nat :=
  s.toList.map Char.toNat

/-- `message.get(key)` on a decoded dictionary. -/
def bdictGet (kvs : List (List Nat × Bval)) (k : List Nat) : Option Bval :=
  (kvs.find? (fun kv => kv.1 = k)).map (fun kv => kv.2)

/-- `message.get(key) == b"..."`: equal exactly when the value is that
byte string. -/
def optIsStr (v : Option Bval) (bs : List Nat) : Bool :=
  match v with
  | some (.str cs) => cs = bs
  | _ => false

/-- `message[k]` subscripting on an arbitrary decoded value: a
dictionary either yields the value or raises `KeyError`; byte strings,
integers and lists raise `TypeError` on a byte-string subscript. -/
def bvalSubscript (v : Bval) (k : List Nat) : Except Unit Bval :=
  match v with
  | .dict kvs =>
    match bdictGet kvs k with
    | some w => .ok w
    | none => .error ()
  | _ => .error ()

/-- `.hex()` on a decoded value: defined for byte strings only
(`AttributeError` otherwise). -/
def bvalHex (v : Bval) : Except Unit String :=
  match v with
  | .str bs => .ok (bytesToHexStr bs)
  | _ => .error ()

/-- `utils.get_node_id(message)`: `message[b"a"][b"id"].hex()` when `a`
is present, else `message[b"r"][b"id"].hex()` when `r` is present, else
`None`.  Exceptions escaping the lookups are modelled as `.error`. -/
def get_node_id (message : List (List Nat × Bval)) :
    Except Unit (Option String) :=
  match bdictGet message (asciiBytes "a") with
  | some v => do
    let w ← bvalSubscript v (asciiBytes "id")
    let h ← bvalHex w
    pure (some h)
  | none =>
    match bdictGet message (asciiBytes "r") with
    | some v => do
      let w ← bvalSubscript v (asciiBytes "id")
      let h ← bvalHex w
      pure (some h)
    | none => pure none

/-- Python `key in value` on a decoded value: key membership for a
dictionary, element equality for a list, substring containment for a
byte string; `TypeError` for an integer. -/
def bvalMem (k : List Nat) (v : Bval) : Except Unit Bool :=
  match v with
  | .dict kvs => .ok (kvs.any (fun kv => kv.1 = k))
  | .list xs => .ok (xs.any (fun x =>
      match x with
      | .str bs => bs = k
      | _ => false))
  | .str bs => .ok (decide (k <:+: bs))
  | .num _ => .error ()

/-- `.keys()` on a decoded value: defined for dictionaries only
(`AttributeError` otherwise). -/
def bvalKeys (v : Bval) : Except Unit (List (List Nat)) :=
  match v with
  | .dict kvs => .ok (kvs.map (fun kv => kv.1))
  | _ => .error ()

/-- `message.get(b"r", {})`. -/
def rDefault (message : List (List Nat × Bval)) : Bval :=
  (bdictGet message (asciiBytes "r")).getD (.dict [])

/-- `utils.get_message_type(message)`, with the Python exceptions of the
response branch (`in` on an integer, `.keys()` on a non-dictionary)
modelled as `.error`. -/
def get_message_type (message : List (List Nat × Bval)) : Except Unit String :=
  if optIsStr (bdictGet message (asciiBytes "y")) (asciiBytes "q") then
    if optIsStr (bdictGet message (asciiBytes "q")) (asciiBytes "announce_peer") then
      .ok "announce_peer_request"
    else if optIsStr (bdictGet message (asciiBytes "q")) (asciiBytes "find_node") then
      .ok "find_node_request"
    else if optIsStr (bdictGet message (asciiBytes "q")) (asciiBytes "get_peers") then
      .ok "get_peers_request"
    else if optIsStr (bdictGet message (asciiBytes "q")) (asciiBytes "ping") then
      .ok "ping_request"
    else if optIsStr (bdictGet message (asciiBytes "q")) (asciiBytes "sample_infohashes") then
      .ok "sample_infohashes"
    else if optIsStr (bdictGet message (asciiBytes "q")) (asciiBytes "vote") then
      .ok "vote"
    else .ok "unknown"
  else if optIsStr (bdictGet message (asciiBytes "y")) (asciiBytes "r") then
    match bvalMem (asciiBytes "values") (rDefault message) with
    | .error e => .error e
    | .ok true => .ok "get_peers_response"
    | .ok false =>
      match bvalMem (asciiBytes "nodes") (rDefault message) with
      | .error e => .error e
      | .ok true => .ok "find_node_response"
      | .ok false =>
        match bvalKeys (rDefault message) with
        | .error e => .error e
        | .ok ks =>
          if ks.all (fun key =>
              key = asciiBytes "id" ∨ key = asciiBytes "ip" ∨ key = asciiBytes "p") then
            .ok "ping_response"
          else .ok "unknown"
  else if optIsStr (bdictGet message (asciiBytes "y")) (asciiBytes "e") then
    .ok "error"
  else .ok "unknown"

/-- Modelled from the spec's words (§4.2), for comparison with
`is_valid_node`: a node is valid iff its ip is not `0.0.0.0`, its port is
in `[1, 65535]`, its id has exactly 40 characters, and its id equals the
base id or has prefix distance at least 30 from it. -/
def specValidNode (node : Node) (base_id : String) : Prop :=
  node.ip ≠ "0.0.0.0" ∧ 1 ≤ node.port ∧ node.port ≤ 65535 ∧
  node.id.length = 40 ∧
  (node.id = base_id ∨ 30 ≤ calculate_distance node.id base_id)

instance (node : Node) (base_id : String) : Decidable (specValidNode node base_id) := by
  unfold specValidNode
  infer_instance

/-- Guard for the response branch of `get_message_type`: the value at
key `r`, when present, is a dictionary. -/
def rIsDictOrAbsent (message : List (List Nat × Bval)) : Bool :=
  match bdictGet message (asciiBytes "r") with
  | none => true
  | some (.dict _) => true
  | some _ => false

/-- What `parse_compact_node_info` recovers from a node's compact form:
id and port survive, while the ip comes back as the dotted-quad rendering
of the first four ASCII bytes of the original ip string (NUL-padded). -/
def expectedParsedNode (n : Node) : Node :=
  { id := n.id,
    ip := ipv4Str (padBytes 4 (n.ip.toList.map Char.toNat)),
    port := n.port }

/-! ### Association-list dictionary lemmas -/

theorem key_of_updateValue_fn (k : String) (f : StoredNode → StoredNode)
    (kv : String × StoredNode) :
    ((if kv.1 = k then (kv.1, f kv.2) else kv) : String × StoredNode).1 = kv.1 := by
  by_cases h : kv.1 = k <;> simp [h]

theorem dictContains_updateValue (l : List (String × StoredNode)) (k : String)
    (f : StoredNode → StoredNode) (k' : String) :
    dictContains (updateValue l k f) k' = dictContains l k' := by
  induction l with
  | nil => rfl
  | cons hd tl ih =>
    simp only [updateValue, List.map_cons, dictContains, List.any_cons] at ih ⊢
    rw [ih, key_of_updateValue_fn]

theorem key_of_setKey_fn (k : String) (v : StoredNode)
    (kv : String × StoredNode) :
    ((if kv.1 = k then (k, v) else kv) : String × StoredNode).1 = kv.1 := by
  by_cases h : kv.1 = k <;> simp [h]

theorem dictContains_mapSet (l : List (String × StoredNode)) (k : String)
    (v : StoredNode) (k' : String) :
    dictContains (l.map (fun kv => if kv.1 = k then (k, v) else kv)) k' =
      dictContains l k' := by
  induction l with
  | nil => rfl
  | cons hd tl ih =>
    simp only [List.map_cons, dictContains, List.any_cons] at ih ⊢
    rw [ih, key_of_setKey_fn]

theorem dictContains_setKey_ne (l : List (String × StoredNode)) (k : String)
    (v : StoredNode) (k' : String) (hne : k' ≠ k) :
    dictContains (setKey l k v) k' = dictContains l k' := by
  unfold setKey
  by_cases hc : dictContains l k
  · simp only [hc, if_pos]
    exact dictContains_mapSet l k v k'
  · simp only [hc, Bool.false_eq_true, if_neg, not_false_iff, if_false]
    simp only [dictContains, List.any_append, List.any_cons, List.any_nil,
      Bool.or_false]
    have : (decide (k = k')) = false := decide_eq_false (fun h => hne h.symm)
    simp [this]

theorem dictContains_setKey_self (l : List (String × StoredNode)) (k : String)
    (v : StoredNode) : dictContains (setKey l k v) k = true := by
  unfold setKey
  by_cases hc : dictContains l k
  · simp only [hc, if_pos]
    rw [dictContains_mapSet]
    exact hc
  · simp only [hc, Bool.false_eq_true, if_neg, not_false_iff, if_false]
    simp [dictContains, List.any_append]

theorem lookupKey_setKey_self (l : List (String × StoredNode)) (k : String)
    (v : StoredNode) : lookupKey (setKey l k v) k = some v := by
  unfold setKey
  by_cases hc : dictContains l k
  · simp only [hc, if_pos]
    induction l with
    | nil => simp [dictContains] at hc
    | cons hd tl ih =>
      by_cases h : hd.1 = k
      · simp [lookupKey, List.find?_cons, h]
      · have hc' : dictContains tl k = true := by
          simpa [dictContains, List.any_cons, h] using hc
        have := ih hc'
        simpa [lookupKey, List.find?_cons, h] using this
  · simp only [hc, Bool.false_eq_true, if_neg, not_false_iff, if_false]
    have hnone : l.find? (fun kv => kv.1 = k) = none := by
      rw [List.find?_eq_none]
      intro x hx hkey
      exact hc (List.any_eq_true.mpr ⟨x, hx, hkey⟩)
    simp [lookupKey, List.find?_append, hnone, List.find?_cons]

theorem lookupKey_updateValue_self (l : List (String × StoredNode)) (k : String)
    (f : StoredNode → StoredNode) :
    lookupKey (updateValue l k f) k = (lookupKey l k).map f := by
  induction l with
  | nil => rfl
  | cons hd tl ih =>
    by_cases h : hd.1 = k
    · simp [updateValue, lookupKey, List.find?_cons, h]
    · simp only [updateValue, List.map_cons, if_neg h] at ih ⊢
      simpa [lookupKey, List.find?_cons, h] using ih

theorem lookupKey_updateValue_ne (l : List (String × StoredNode)) (k : String)
    (f : StoredNode → StoredNode) (k' : String) (h : k' ≠ k) :
    lookupKey (updateValue l k f) k' = lookupKey l k' := by
  induction l with
  | nil => rfl
  | cons hd tl ih =>
    by_cases hh : hd.1 = k
    · have hne : ¬ hd.1 = k' := fun he => h (he ▸ hh : k' = k)
      simp only [updateValue, List.map_cons, if_pos hh] at ih ⊢
      simpa [lookupKey, List.find?_cons, hne] using ih
    · by_cases hk' : hd.1 = k'
      · simp only [updateValue, List.map_cons, if_neg hh]
        simp [lookupKey, List.find?_cons, hk']
      · simp only [updateValue, List.map_cons, if_neg hh] at ih ⊢
        simpa [lookupKey, List.find?_cons, hh, hk'] using ih

theorem length_updateValue (l : List (String × StoredNode)) (k : String)
    (f : StoredNode → StoredNode) :
    (updateValue l k f).length = l.length := by
  simp [updateValue]

/-! ### Claim theorems -/

/-- C10: for every stored node and every evaluation time, being
unresponsive (reference time older than 15 minutes) implies being
questionable (reference time older than 5 minutes): both compare the
same reference time — `communicated` if present, else `added` — so any
node eligible for deletion was already eligible for a ping probe. -/
theorem c10_unresponsive_implies_questionable (s : StoredNode) (now : Int)
    (h : s.is_unresponsive now = true) : s.is_questionable now = true := by
  simp only [StoredNode.is_unresponsive, StoredNode.is_questionable,
    timedeltaMinutes, decide_eq_true_eq] at h ⊢
  omega

theorem c10_witness :
    StoredNode.is_questionable ⟨"n", "ip", 1, 0, none, 40, ∅⟩ 1000000000 = true :=
  c10_unresponsive_implies_questionable ⟨"n", "ip", 1, 0, none, 40, ∅⟩
    1000000000 (by decide)

/-- C7: `delete_unresponsive_nodes` keeps exactly the entries whose
reference time (`communicated` if present, else `added`) is not more
than 15 minutes before the evaluation time, preserving every surviving
entry unchanged; an entry with `communicated = now − 15min − ε` is
unresponsive (hence deleted) while one with
`communicated = now − 15min + ε` is not (hence survives). -/
theorem c7_eviction_boundary (t : RoutingTable) (now ε : Int) (hε : 0 < ε) :
    (∀ e, e ∈ (delete_unresponsive_nodes t now).nodes ↔
        e ∈ t.nodes ∧ ¬ (timedeltaMinutes 15 < now - e.2.startTime)) ∧
    (∀ s : StoredNode, s.communicated = some (now - timedeltaMinutes 15 - ε) →
        s.is_unresponsive now = true) ∧
    (∀ s : StoredNode, s.communicated = some (now - timedeltaMinutes 15 + ε) →
        s.is_unresponsive now = false) ∧
    (delete_unresponsive_nodes t now).base_id = t.base_id := by
  refine ⟨?_, ?_, ?_, rfl⟩
  · intro e
    simp only [delete_unresponsive_nodes, List.mem_filter, Bool.not_eq_eq_eq_not,
      Bool.not_true, StoredNode.is_unresponsive, decide_eq_false_iff_not]
    constructor
    · rintro ⟨hm, hlt⟩
      exact ⟨hm, fun hgt => hlt (by omega)⟩
    · rintro ⟨hm, hlt⟩
      exact ⟨hm, fun hgt => hlt (by omega)⟩
  · intro s hs
    simp only [StoredNode.is_unresponsive, StoredNode.startTime, hs,
      Option.getD_some, decide_eq_true_eq]
    omega
  · intro s hs
    simp only [StoredNode.is_unresponsive, StoredNode.startTime, hs,
      Option.getD_some, decide_eq_false_iff_not]
    omega

theorem c7_witness :
    (0 : Int) < 1 ∧
      StoredNode.is_unresponsive ⟨"n", "ip", 1, 0, some (-900000001), 40, ∅⟩ 0 = true :=
  ⟨by decide,
    (c7_eviction_boundary ⟨"b", []⟩ 0 1 (by decide)).2.1
      ⟨"n", "ip", 1, 0, some (-900000001), 40, ∅⟩ (by decide)⟩

/-- C2 counterexample: `is_valid_node` accepts a node whose (Python
`int`) port is `-1`, since the source only rejects `port == 0` and
`port > 65535`; the spec predicate `port ∈ [1, 65535]` rejects it. -/
theorem c2_counterexample :
    is_valid_node
      ⟨"aaaaaaaaaaaaaaaaaaaaaaaaaaaaaaaaaaaaaaaa", "1.2.3.4", -1⟩
      "aaaaaaaaaaaaaaaaaaaaaaaaaaaaaaaaaaaaaaaa" = true ∧
    ¬ specValidNode
      ⟨"aaaaaaaaaaaaaaaaaaaaaaaaaaaaaaaaaaaaaaaa", "1.2.3.4", -1⟩
      "aaaaaaaaaaaaaaaaaaaaaaaaaaaaaaaaaaaaaaaa" := by
  constructor
  · decide
  · decide

/-- C2 amended: `is_valid_node(node, base_id)` returns true iff
`node.ip ≠ "0.0.0.0"`, `node.port` is nonzero and at most 65535 (the
code does not reject negative ports), `node.id` has exactly 40
characters, and `node.id = base_id` or the prefix distance to `base_id`
is at least 30. -/
theorem c2_is_valid_node_characterization (node : Node) (base_id : String) :
    is_valid_node node base_id = true ↔
      (node.ip ≠ "0.0.0.0" ∧ node.port ≠ 0 ∧ node.port ≤ 65535 ∧
       node.id.length = 40 ∧
       (node.id = base_id ∨ 30 ≤ calculate_distance node.id base_id)) := by
  unfold is_valid_node
  split_ifs with h1 h2 h3 h4 h5 <;> first
    | (simp_all; omega)
    | simp_all

theorem c2_witness :
    is_valid_node
      ⟨"bbbbbbbbbbbbbbbbbbbbbbbbbbbbbbbbbbbbbbbb", "1.2.3.4", 6881⟩
      "aaaaaaaaaaaaaaaaaaaaaaaaaaaaaaaaaaaaaaaa" = true :=
  (c2_is_valid_node_characterization _ _).mpr (by decide)

/-- C3 (code bug): sender-identifier extraction on well-formed messages
takes `a.id` / `r.id` rendered to 40-hex and yields nothing when both
keys are absent — but on a message whose `a` dictionary lacks the `id`
subkey it raises `KeyError` (modelled `.error`), which in
`DHTNode._process_messages` is outside every `try` block, so the
datagram is not dropped silently: the exception terminates the receive
loop. -/
theorem c3_get_node_id_behavior :
    (get_node_id [(asciiBytes "a", .dict []), (asciiBytes "y", .str (asciiBytes "q"))]
      = .error ()) ∧
    (get_node_id [(asciiBytes "t", .str (asciiBytes "xy"))] = .ok none) ∧
    (get_node_id
      [(asciiBytes "a", .dict [(asciiBytes "id", .str (List.replicate 20 7))]),
       (asciiBytes "y", .str (asciiBytes "q"))]
      = .ok (some "0707070707070707070707070707070707070707")) ∧
    (get_node_id
      [(asciiBytes "r", .dict [(asciiBytes "id", .str (List.replicate 20 255))]),
       (asciiBytes "y", .str (asciiBytes "r"))]
      = .ok (some "ffffffffffffffffffffffffffffffffffffffff")) := by
  refine ⟨?_, ?_, ?_, ?_⟩ <;> decide

/-- C5: if the node id is already present and a communicated timestamp
`c` is supplied, `save_node` updates exactly the stored entry's
`communicated` field to `c` — all its other fields, every other table
entry, the table's size and the base id are unchanged. -/
theorem c5_freshness_refresh (t : RoutingTable) (node : Node) (c now : Int)
    (hb : node.id ≠ t.base_id) (hp : dictContains t.nodes node.id = true) :
    (save_node t node (some c) now).base_id = t.base_id ∧
    lookupKey (save_node t node (some c) now).nodes node.id =
      (lookupKey t.nodes node.id).map
        (fun s => { s with communicated := some c }) ∧
    (∀ k, k ≠ node.id →
      lookupKey (save_node t node (some c) now).nodes k =
        lookupKey t.nodes k) ∧
    (save_node t node (some c) now).nodes.length = t.nodes.length := by
  have hcond : (dictContains t.nodes node.id && (some c).isSome) = true := by
    simp [hp]
  unfold save_node
  rw [if_pos hb, if_pos hcond]
  dsimp only
  exact ⟨rfl, lookupKey_updateValue_self t.nodes node.id _,
    fun k hk => lookupKey_updateValue_ne t.nodes node.id _ k hk,
    length_updateValue t.nodes node.id _⟩

theorem c5_witness :
    lookupKey
      ((save_node
        ⟨"bbbbbbbbbbbbbbbbbbbbbbbbbbbbbbbbbbbbbbbb",
         [("aaaaaaaaaaaaaaaaaaaaaaaaaaaaaaaaaaaaaaaa",
           ⟨"aaaaaaaaaaaaaaaaaaaaaaaaaaaaaaaaaaaaaaaa", "ip", 1, 0, none, 40, ∅⟩)]⟩
        ⟨"aaaaaaaaaaaaaaaaaaaaaaaaaaaaaaaaaaaaaaaa", "ip", 1⟩
        (some 5) 9).nodes)
      "aaaaaaaaaaaaaaaaaaaaaaaaaaaaaaaaaaaaaaaa" =
    (lookupKey
      [("aaaaaaaaaaaaaaaaaaaaaaaaaaaaaaaaaaaaaaaa",
        ⟨"aaaaaaaaaaaaaaaaaaaaaaaaaaaaaaaaaaaaaaaa", "ip", 1, 0, none, 40, ∅⟩)]
      "aaaaaaaaaaaaaaaaaaaaaaaaaaaaaaaaaaaaaaaa").map
        (fun s => { s with communicated := some 5 }) :=
  (c5_freshness_refresh _ _ 5 9 (by decide) (by decide)).2.1

/-- C4 counterexample: a stored entry is NOT only mutated through
`communicated` updates and peer-set extension — calling `save_node`
again for an already-present id with no communicated timestamp replaces
the entry: here the stored node's peer set and added time change. -/
theorem c4_counterexample :
    lookupKey
      ((save_node
        ⟨"bbbbbbbbbbbbbbbbbbbbbbbbbbbbbbbbbbbbbbbb",
         [("aaaaaaaaaaaaaaaaaaaaaaaaaaaaaaaaaaaaaaaa",
           ⟨"aaaaaaaaaaaaaaaaaaaaaaaaaaaaaaaaaaaaaaaa", "ip", 1, 0, none, 40,
            {⟨"hash", "peerip", 2⟩}⟩)]⟩
        ⟨"aaaaaaaaaaaaaaaaaaaaaaaaaaaaaaaaaaaaaaaa", "ip", 1⟩
        none 7).nodes)
      "aaaaaaaaaaaaaaaaaaaaaaaaaaaaaaaaaaaaaaaa" ≠
    some ⟨"aaaaaaaaaaaaaaaaaaaaaaaaaaaaaaaaaaaaaaaa", "ip", 1, 0, none, 40,
      {⟨"hash", "peerip", 2⟩}⟩ := by
  decide

/-- C4 amended: once admitted, a stored entry is mutated by
`communicated` updates (C5) and peer-set extension; but a repeated
`save_node` for a present id with no communicated timestamp does not
leave the entry unchanged — whenever `distance ≤ 36` or the table has
fewer than 7 entries it overwrites the entry with a fresh `StoredNode`
(new `added`, `communicated = None`, empty peer set); only otherwise is
the table unchanged. -/
theorem c4_resave_overwrites (t : RoutingTable) (node : Node) (now : Int)
    (hb : node.id ≠ t.base_id) (_hp : dictContains t.nodes node.id = true) :
    save_node t node none now =
      (if calculate_distance t.base_id node.id ≤ 36 ∨ t.nodes.length < 7 then
        { t with nodes := setKey t.nodes node.id ⟨node.id, node.ip, node.port, now, none, calculate_distance t.base_id node.id, ∅⟩ }
      else t) ∧
    (calculate_distance t.base_id node.id ≤ 36 ∨ t.nodes.length < 7 →
      lookupKey (save_node t node none now).nodes node.id =
        some ⟨node.id, node.ip, node.port, now, none,
          calculate_distance t.base_id node.id, ∅⟩) ∧
    (∀ p, lookupKey (save_peer t p node.id).nodes node.id =
      (lookupKey t.nodes node.id).map
        (fun s => { s with peers := insert p s.peers })) := by
  have hcond : (dictContains t.nodes node.id && (none : Option Int).isSome) = false := by
    simp
  refine ⟨?_, ?_, ?_⟩
  · unfold save_node
    rw [if_pos hb, hcond]
    simp
  · intro hadm
    unfold save_node
    rw [if_pos hb, hcond]
    simp only [Bool.false_eq_true, if_false, if_pos hadm]
    exact lookupKey_setKey_self t.nodes node.id _
  · intro p
    unfold save_peer
    rw [if_pos _hp]
    dsimp only
    exact lookupKey_updateValue_self t.nodes node.id _

theorem c4_witness :
    lookupKey
      ((save_node
        ⟨"bbbbbbbbbbbbbbbbbbbbbbbbbbbbbbbbbbbbbbbb",
         [("aaaaaaaaaaaaaaaaaaaaaaaaaaaaaaaaaaaaaaaa",
           ⟨"aaaaaaaaaaaaaaaaaaaaaaaaaaaaaaaaaaaaaaaa", "ip", 1, 0, none, 40,
            {⟨"hash", "peerip", 2⟩}⟩)]⟩
        ⟨"aaaaaaaaaaaaaaaaaaaaaaaaaaaaaaaaaaaaaaaa", "ip", 1⟩
        none 7).nodes)
      "aaaaaaaaaaaaaaaaaaaaaaaaaaaaaaaaaaaaaaaa" =
    some ⟨"aaaaaaaaaaaaaaaaaaaaaaaaaaaaaaaaaaaaaaaa", "ip", 1, 7, none, 40, ∅⟩ :=
  (c4_resave_overwrites _ _ 7 (by decide) (by decide)).2.1 (by decide)

/-- C1: `save_node` skips the base id (leaving the table unchanged, and
never introducing an entry under the base id); for a new id it admits a
`StoredNode` iff `distance ≤ 36` or the table holds fewer than 7
entries, and the admitted entry carries the computed distance, the given
communicated timestamp and an empty peer set. -/
theorem c1_admission_rule (t : RoutingTable) (node : Node) (c : Option Int)
    (now : Int) :
    (node.id = t.base_id → save_node t node c now = t) ∧
    (dictContains t.nodes t.base_id = false →
      dictContains (save_node t node c now).nodes t.base_id = false) ∧
    (node.id ≠ t.base_id → dictContains t.nodes node.id = false →
      ((dictContains (save_node t node c now).nodes node.id = true ↔
          (calculate_distance t.base_id node.id ≤ 36 ∨ t.nodes.length < 7)) ∧
       (calculate_distance t.base_id node.id ≤ 36 ∨ t.nodes.length < 7 →
         lookupKey (save_node t node c now).nodes node.id =
           some ⟨node.id, node.ip, node.port, now, c,
             calculate_distance t.base_id node.id, ∅⟩))) := by
  refine ⟨?_, ?_, ?_⟩
  · intro hb
    simp [save_node, hb]
  · intro hbase
    unfold save_node
    by_cases hb : node.id ≠ t.base_id
    · rw [if_pos hb]
      by_cases hcond : (dictContains t.nodes node.id && c.isSome) = true
      · rw [if_pos hcond]
        simpa [dictContains_updateValue] using hbase
      · rw [if_neg hcond]
        by_cases hadm : calculate_distance t.base_id node.id ≤ 36 ∨ t.nodes.length < 7
        · rw [if_pos hadm]
          dsimp only
          rw [dictContains_setKey_ne t.nodes node.id _ t.base_id (fun h => hb h.symm)]
          exact hbase
        · rw [if_neg hadm]
          exact hbase
    · rw [if_neg hb]
      exact hbase
  · intro hb hnotin
    have hcond : (dictContains t.nodes node.id && c.isSome) = false := by
      simp [hnotin]
    unfold save_node
    rw [if_pos hb, hcond]
    simp only [Bool.false_eq_true, if_false]
    by_cases hadm : calculate_distance t.base_id node.id ≤ 36 ∨ t.nodes.length < 7
    · rw [if_pos hadm]
      dsimp only
      constructor
      · rw [dictContains_setKey_self]
        simp [hadm]
      · intro _
        exact lookupKey_setKey_self t.nodes node.id _
    · rw [if_neg hadm]
      constructor
      · simp [hnotin, hadm]
      · intro h
        exact absurd h hadm

theorem c1_witness :
    (save_node
      ⟨"bbbbbbbbbbbbbbbbbbbbbbbbbbbbbbbbbbbbbbbb", []⟩
      ⟨"bbbbbbbbbbbbbbbbbbbbbbbbbbbbbbbbbbbbbbbb", "ip", 1⟩ none 3 =
      ⟨"bbbbbbbbbbbbbbbbbbbbbbbbbbbbbbbbbbbbbbbb", []⟩) ∧
    lookupKey
      ((save_node
        ⟨"bbbbbbbbbbbbbbbbbbbbbbbbbbbbbbbbbbbbbbbb", []⟩
        ⟨"aaaaaaaaaaaaaaaaaaaaaaaaaaaaaaaaaaaaaaaa", "ip", 1⟩ (some 2) 3).nodes)
      "aaaaaaaaaaaaaaaaaaaaaaaaaaaaaaaaaaaaaaaa" =
      some ⟨"aaaaaaaaaaaaaaaaaaaaaaaaaaaaaaaaaaaaaaaa", "ip", 1, 3, some 2, 40, ∅⟩ :=
  ⟨(c1_admission_rule ⟨"bbbbbbbbbbbbbbbbbbbbbbbbbbbbbbbbbbbbbbbb", []⟩
      ⟨"bbbbbbbbbbbbbbbbbbbbbbbbbbbbbbbbbbbbbbbb", "ip", 1⟩ none 3).1 rfl,
   ((c1_admission_rule ⟨"bbbbbbbbbbbbbbbbbbbbbbbbbbbbbbbbbbbbbbbb", []⟩
      ⟨"aaaaaaaaaaaaaaaaaaaaaaaaaaaaaaaaaaaaaaaa", "ip", 1⟩ (some 2) 3).2.2
      (by decide) (by decide)).2 (by decide)⟩

/-- C6: `get_closest_nodes(x)` returns at most 7 stored nodes, each
present in the table, pairwise ordered by distance to `x` (so every
adjacent returned pair `(a, b)` satisfies `d(x, a.id) ≤ d(x, b.id)`),
and every returned node is at distance no greater than any table entry
that was not returned. -/
theorem c6_closest_nodes (t : RoutingTable) (x : String) :
    (get_closest_nodes t x).length ≤ 7 ∧
    (∀ n ∈ get_closest_nodes t x, n ∈ get_all_nodes t) ∧
    (get_closest_nodes t x).Sorted (distRel x) ∧
    (∀ a ∈ get_closest_nodes t x, ∀ b ∈ get_all_nodes t,
      b ∉ get_closest_nodes t x →
        calculate_distance x a.id ≤ calculate_distance x b.id) := by
  have hperm : (List.insertionSort (distRel x) (get_all_nodes t)).Perm
      (get_all_nodes t) := List.perm_insertionSort _ _
  have hsorted : (List.insertionSort (distRel x) (get_all_nodes t)).Sorted
      (distRel x) := List.sorted_insertionSort _ _
  refine ⟨?_, ?_, ?_, ?_⟩
  · exact List.length_take_le 7 _
  · intro n hn
    exact hperm.subset (List.take_subset 7 _ hn)
  · exact hsorted.sublist (List.take_sublist 7 _)
  · intro a ha b hb hnb
    have hbs : b ∈ List.insertionSort (distRel x) (get_all_nodes t) :=
      hperm.mem_iff.mpr hb
    rw [← List.take_append_drop 7 (List.insertionSort (distRel x) (get_all_nodes t))]
      at hbs
    have hbd : b ∈ (List.insertionSort (distRel x) (get_all_nodes t)).drop 7 := by
      rcases List.mem_append.mp hbs with h | h
      · exact absurd h hnb
      · exact h
    have hpw := hsorted
    rw [← List.take_append_drop 7 (List.insertionSort (distRel x) (get_all_nodes t))]
      at hpw
    exact (List.pairwise_append.mp hpw).2.2 a ha b hbd

theorem c6_witness :
    (get_closest_nodes
      ⟨"bbbbbbbbbbbbbbbbbbbbbbbbbbbbbbbbbbbbbbbb",
       [("aaaaaaaaaaaaaaaaaaaaaaaaaaaaaaaaaaaaaaaa",
         ⟨"aaaaaaaaaaaaaaaaaaaaaaaaaaaaaaaaaaaaaaaa", "ip", 1, 0, none, 40, ∅⟩)]⟩
      "cccccccccccccccccccccccccccccccccccccccc").length ≤ 7 ∧
    (⟨"aaaaaaaaaaaaaaaaaaaaaaaaaaaaaaaaaaaaaaaa", "ip", 1, 0, none, 40, ∅⟩ : StoredNode) ∈
      get_all_nodes
        ⟨"bbbbbbbbbbbbbbbbbbbbbbbbbbbbbbbbbbbbbbbb",
         [("aaaaaaaaaaaaaaaaaaaaaaaaaaaaaaaaaaaaaaaa",
           ⟨"aaaaaaaaaaaaaaaaaaaaaaaaaaaaaaaaaaaaaaaa", "ip", 1, 0, none, 40, ∅⟩)]⟩ :=
  ⟨(c6_closest_nodes _ _).1,
   (c6_closest_nodes
      ⟨"bbbbbbbbbbbbbbbbbbbbbbbbbbbbbbbbbbbbbbbb",
       [("aaaaaaaaaaaaaaaaaaaaaaaaaaaaaaaaaaaaaaaa",
         ⟨"aaaaaaaaaaaaaaaaaaaaaaaaaaaaaaaaaaaaaaaa", "ip", 1, 0, none, 40, ∅⟩)]⟩
      "cccccccccccccccccccccccccccccccccccccccc").2.1 _ (by decide)⟩

theorem optIsStr_eq_both {v : Option Bval} {b1 b2 : List Nat}
    (h1 : optIsStr v b1 = true) (h2 : optIsStr v b2 = true) : b1 = b2 := by
  cases v with
  | none => simp [optIsStr] at h1
  | some w =>
    cases w with
    | str bs =>
      simp only [optIsStr, decide_eq_true_eq] at h1 h2
      exact h1.symm.trans h2
    | num n => simp [optIsStr] at h1
    | list xs => simp [optIsStr] at h1
    | dict kvs => simp [optIsStr] at h1

/-- C8 counterexample: classification is not total over every decoded
mapping — on `{y: "r", r: 0}` the source evaluates `b"values" in 0`,
raising `TypeError` (modelled `.error`), instead of yielding a label. -/
theorem c8_counterexample :
    get_message_type [(asciiBytes "y", .str (asciiBytes "r")),
                      (asciiBytes "r", .num 0)] = .error () := by
  decide

/-- C8 amended: over decoded mappings whose value at key `r` (when
present) is a dictionary, classification is total and deterministic,
yielding exactly one label of the closed set; and when `y = r` the label
is `get_peers_response` when `r` contains `values`, else
`find_node_response` when `r` contains `nodes`, else `ping_response`
when `r`'s keys all lie in `{id, ip, p}`, and otherwise `unknown`. -/
theorem c8_classification (message : List (List Nat × Bval))
    (h : rIsDictOrAbsent message = true) :
    (∃ l, get_message_type message = .ok l ∧
       l ∈ ["announce_peer_request", "find_node_request", "get_peers_request",
            "ping_request", "sample_infohashes", "vote", "get_peers_response",
            "find_node_response", "ping_response", "error", "unknown"]) ∧
    (optIsStr (bdictGet message (asciiBytes "y")) (asciiBytes "r") = true →
      ∃ kvs, rDefault message = .dict kvs ∧
        get_message_type message = .ok (
          if kvs.any (fun kv => kv.1 = asciiBytes "values") then
            "get_peers_response"
          else if kvs.any (fun kv => kv.1 = asciiBytes "nodes") then
            "find_node_response"
          else if (kvs.map (fun kv => kv.1)).all (fun key =>
              key = asciiBytes "id" ∨ key = asciiBytes "ip" ∨
              key = asciiBytes "p") then
            "ping_response"
          else "unknown")) := by
  obtain ⟨kvs, hkvs⟩ : ∃ kvs, rDefault message = .dict kvs := by
    unfold rIsDictOrAbsent at h
    unfold rDefault
    cases hm : bdictGet message (asciiBytes "r") with
    | none => exact ⟨[], rfl⟩
    | some v =>
      rw [hm] at h
      cases v with
      | str bs => simp at h
      | num n => simp at h
      | list xs => simp at h
      | dict kvs => exact ⟨kvs, rfl⟩
  have hvalues : bvalMem (asciiBytes "values") (rDefault message) =
      .ok (kvs.any (fun kv => kv.1 = asciiBytes "values")) := by
    rw [hkvs]; rfl
  have hnodes : bvalMem (asciiBytes "nodes") (rDefault message) =
      .ok (kvs.any (fun kv => kv.1 = asciiBytes "nodes")) := by
    rw [hkvs]; rfl
  have hkeys : bvalKeys (rDefault message) =
      .ok (kvs.map (fun kv => kv.1)) := by
    rw [hkvs]; rfl
  by_cases hA : optIsStr (bdictGet message (asciiBytes "y")) (asciiBytes "q") = true
  · refine ⟨?_, fun hyr => absurd (optIsStr_eq_both hA hyr) (by decide)⟩
    unfold get_message_type
    rw [if_pos hA]
    split_ifs <;> exact ⟨_, rfl, by decide⟩
  · by_cases hB : optIsStr (bdictGet message (asciiBytes "y")) (asciiBytes "r") = true
    · have hmain : get_message_type message = .ok (
          if kvs.any (fun kv => kv.1 = asciiBytes "values") then
            "get_peers_response"
          else if kvs.any (fun kv => kv.1 = asciiBytes "nodes") then
            "find_node_response"
          else if (kvs.map (fun kv => kv.1)).all (fun key =>
              key = asciiBytes "id" ∨ key = asciiBytes "ip" ∨
              key = asciiBytes "p") then
            "ping_response"
          else "unknown") := by
        unfold get_message_type
        rw [if_neg hA, if_pos hB, hvalues, hnodes, hkeys]
        by_cases hV : kvs.any (fun kv => kv.1 = asciiBytes "values") = true
        · simp [hV]
        · simp only [Bool.not_eq_true] at hV
          rw [hV]
          by_cases hN : kvs.any (fun kv => kv.1 = asciiBytes "nodes") = true
          · simp [hN]
          · simp only [Bool.not_eq_true] at hN
            rw [hN]
            dsimp only
            split_ifs <;> simp_all
      refine ⟨⟨_, hmain, ?_⟩, fun _ => ⟨kvs, hkvs, hmain⟩⟩
      split_ifs <;> decide
    · refine ⟨?_, fun hyr => absurd hyr hB⟩
      unfold get_message_type
      rw [if_neg hA, if_neg hB]
      by_cases hE : optIsStr (bdictGet message (asciiBytes "y")) (asciiBytes "e") = true
      · rw [if_pos hE]
        exact ⟨_, rfl, by decide⟩
      · rw [if_neg hE]
        exact ⟨_, rfl, by decide⟩

theorem c8_witness :
    ∃ l, get_message_type [(asciiBytes "y", .str (asciiBytes "r")),
        (asciiBytes "r", .dict [(asciiBytes "values", .list [])])] = .ok l ∧
      l ∈ ["announce_peer_request", "find_node_request", "get_peers_request",
           "ping_request", "sample_infohashes", "vote", "get_peers_response",
           "find_node_response", "ping_response", "error", "unknown"] :=
  (c8_classification _ (by decide)).1

/-! ### Compact-encoding lemmas (C9) -/

theorem hexDigit_round : ∀ c ∈ lowerHexChars,
    ∃ v, hexCharVal? c = some v ∧ v < 16 ∧ hexDigitChar v = c := by
  intro c hc
  simp only [lowerHexChars, List.mem_map, List.mem_range] at hc
  obtain ⟨v, hv, rfl⟩ := hc
  refine ⟨v, ?_, hv, rfl⟩
  revert v
  decide

theorem padBytes_length (k : Nat) (bs : List Nat) :
    (padBytes k bs).length = k := by
  simp [padBytes]
  omega

theorem padBytes_eq_self (k : Nat) (bs : List Nat) (h : bs.length = k) :
    padBytes k bs = bs := by
  simp [padBytes, h, List.take_of_length_le (le_of_eq h)]

theorem hex_roundtrip : ∀ (s : List Char), s.length % 2 = 0 →
    (∀ c ∈ s, c ∈ lowerHexChars) →
    ∃ bs, bytesFromHex? s = some bs ∧ 2 * bs.length = s.length ∧
      bs.flatMap byteToHexChars = s
  | [], _, _ => ⟨[], rfl, rfl, rfl⟩
  | [c], heven, _ => absurd heven (by simp)
  | c1 :: c2 :: rest, heven, hhex => by
    obtain ⟨v1, hv1, hv1lt, hc1⟩ := hexDigit_round c1 (hhex c1 (by simp))
    obtain ⟨v2, hv2, hv2lt, hc2⟩ := hexDigit_round c2 (hhex c2 (by simp))
    obtain ⟨bs, hbs, hlen, hflat⟩ := hex_roundtrip rest
      (by simp only [List.length_cons] at heven; omega)
      (fun c hc => hhex c (by simp [hc]))
    refine ⟨(16 * v1 + v2) :: bs, ?_, ?_, ?_⟩
    · simp [bytesFromHex?, hv1, hv2, hbs]
    · simp only [List.length_cons]
      omega
    · have hd : (16 * v1 + v2) / 16 = v1 := by omega
      have hm : (16 * v1 + v2) % 16 = v2 := by omega
      simp [List.flatMap_cons, byteToHexChars, hd, hm, hc1, hc2, hflat]

theorem parse_compact_cons (block data : List Nat) (hb : block.length = 26) :
    parse_compact_node_info (block ++ data) =
      decodeCompactNode block :: parse_compact_node_info data := by
  unfold parse_compact_node_info
  have h1 : (block ++ data).length = 26 + data.length := by
    simp [hb]
  rw [h1]
  have h2 : (26 + data.length) / 26 = data.length / 26 + 1 := by omega
  rw [h2, List.range_succ_eq_map]
  simp only [List.map_cons, List.map_map]
  congr 1
  · have : (26 : Nat) * 0 = 0 := by norm_num
    rw [this, List.drop_zero, List.take_left' hb]
  · apply List.map_congr_left
    intro i _
    have hdrop : (block ++ data).drop (26 * Nat.succ i) = data.drop (26 * i) := by
      have h26 : 26 * Nat.succ i = 26 + 26 * i := by
        simp [Nat.succ_eq_add_one]
        ring
      rw [h26, ← List.drop_drop, List.drop_left' hb]
    simp only [Function.comp_apply, hdrop]

theorem compact_info_spec (n : Node) (hlen : n.id.length = 40)
    (hhex : ∀ c ∈ n.id.toList, c ∈ lowerHexChars)
    (hascii : ∀ c ∈ n.ip.toList, c.toNat < 128)
    (hp0 : 0 ≤ n.port) (hp1 : n.port ≤ 65535) :
    ∃ idb, bytesFromHex? n.id.toList = some idb ∧ idb.length = 20 ∧
      n.compact_info = .ok (idb ++ padBytes 4 (n.ip.toList.map Char.toNat) ++
        [n.port.toNat / 256, n.port.toNat % 256]) ∧
      decodeCompactNode (idb ++ padBytes 4 (n.ip.toList.map Char.toNat) ++
        [n.port.toNat / 256, n.port.toNat % 256]) = expectedParsedNode n := by
  have hlen' : n.id.toList.length = 40 := hlen
  obtain ⟨idb, hbs, hblen, hflat⟩ := hex_roundtrip n.id.toList
    (by rw [hlen']) hhex
  have hidb20 : idb.length = 20 := by omega
  have hasciiEnc : asciiEncode? n.ip = some (n.ip.toList.map Char.toNat) := by
    unfold asciiEncode?
    rw [if_pos]
    exact List.all_eq_true.mpr (fun c hc => decide_eq_true (hascii c hc))
  refine ⟨idb, hbs, hidb20, ?_, ?_⟩
  · unfold Node.compact_info
    rw [hbs, hasciiEnc]
    dsimp only
    rw [if_pos ⟨hp0, hp1⟩, padBytes_eq_self 20 idb hidb20]
  · have hpad4 : (padBytes 4 (n.ip.toList.map Char.toNat)).length = 4 :=
      padBytes_length _ _
    have hassoc : idb ++ padBytes 4 (n.ip.toList.map Char.toNat) ++
        [n.port.toNat / 256, n.port.toNat % 256] =
      idb ++ (padBytes 4 (n.ip.toList.map Char.toNat) ++
        [n.port.toNat / 256, n.port.toNat % 256]) := by
      rw [List.append_assoc]
    unfold decodeCompactNode expectedParsedNode
    rw [hassoc]
    have htake : (idb ++ (padBytes 4 (n.ip.toList.map Char.toNat) ++
        [n.port.toNat / 256, n.port.toNat % 256])).take 20 = idb :=
      List.take_left' hidb20
    have hdrop20 : (idb ++ (padBytes 4 (n.ip.toList.map Char.toNat) ++
        [n.port.toNat / 256, n.port.toNat % 256])).drop 20 =
      padBytes 4 (n.ip.toList.map Char.toNat) ++
        [n.port.toNat / 256, n.port.toNat % 256] :=
      List.drop_left' hidb20
    have hdrop24 : (idb ++ (padBytes 4 (n.ip.toList.map Char.toNat) ++
        [n.port.toNat / 256, n.port.toNat % 256])).drop 24 =
      [n.port.toNat / 256, n.port.toNat % 256] := by
      have h24 : (24 : Nat) = 20 + 4 := by norm_num
      rw [h24, ← List.drop_drop, hdrop20, List.drop_left' hpad4]
    rw [htake, hdrop20, hdrop24]
    have hid : bytesToHexStr idb = n.id := by
      unfold bytesToHexStr
      rw [hflat]
      rfl
    have hip : (padBytes 4 (n.ip.toList.map Char.toNat) ++
        [n.port.toNat / 256, n.port.toNat % 256]).take 4 =
      padBytes 4 (n.ip.toList.map Char.toNat) :=
      List.take_left' hpad4
    have hport : ((256 * (([n.port.toNat / 256, n.port.toNat % 256] : List Nat).getD 0 0) +
        ([n.port.toNat / 256, n.port.toNat % 256] : List Nat).getD 1 0 : Nat) : Int) =
        n.port := by
      have hgd0 : (([n.port.toNat / 256, n.port.toNat % 256] : List Nat).getD 0 0) =
          n.port.toNat / 256 := rfl
      have hgd1 : (([n.port.toNat / 256, n.port.toNat % 256] : List Nat).getD 1 0) =
          n.port.toNat % 256 := rfl
      rw [hgd0, hgd1]
      have hsum : 256 * (n.port.toNat / 256) + n.port.toNat % 256 = n.port.toNat := by
        omega
      rw [hsum]
      exact Int.toNat_of_nonneg hp0
    rw [hid, hip, hport]

/-- C9 counterexample: the round trip does not recover the ip.  The
encoder packs `ip.encode("ascii")` into the 4-byte field (truncated to
`b"1.2."`), so the decoder renders `"49.46.50.46"` — the byte values of
the characters `1`, `.`, `2`, `.` — instead of `"1.2.3.4"`. -/
theorem c9_counterexample :
    (create_compact_node_info
      [⟨"0000000000000000000000000000000000000000", "1.2.3.4", 80⟩]).map
        parse_compact_node_info =
      .ok [⟨"0000000000000000000000000000000000000000", "49.46.50.46", 80⟩] ∧
    ("49.46.50.46" : String) ≠ "1.2.3.4" := by
  constructor
  · decide
  · decide

/-- C9 amended: for every list of nodes with 40-character lowercase-hex
ids, ASCII ip strings and ports in `[0, 65535]`, parsing the compact
encoding recovers each node's id and port exactly, while the ip comes
back as the dotted-quad rendering of the first four ASCII bytes of the
original ip string (NUL-padded) — `expectedParsedNode`. -/
theorem c9_compact_roundtrip (nodes : List Node)
    (h : ∀ n ∈ nodes, n.id.length = 40 ∧
      (∀ c ∈ n.id.toList, c ∈ lowerHexChars) ∧
      (∀ c ∈ n.ip.toList, c.toNat < 128) ∧ 0 ≤ n.port ∧ n.port ≤ 65535) :
    ∃ data, create_compact_node_info nodes = .ok data ∧
      parse_compact_node_info data = nodes.map expectedParsedNode := by
  induction nodes with
  | nil => exact ⟨[], rfl, rfl⟩
  | cons n ns ih =>
    obtain ⟨hlen, hhex, hascii, hp0, hp1⟩ := h n (by simp)
    obtain ⟨data, hdata, hparse⟩ := ih (fun m hm => h m (by simp [hm]))
    obtain ⟨idb, hbs, hidb20, hci, hdec⟩ :=
      compact_info_spec n hlen hhex hascii hp0 hp1
    have hblock26 : (idb ++ padBytes 4 (n.ip.toList.map Char.toNat) ++
        [n.port.toNat / 256, n.port.toNat % 256]).length = 26 := by
      simp [hidb20, padBytes_length]
    cases hm : ns.mapM Node.compact_info with
    | error e =>
      rw [create_compact_node_info, hm] at hdata
      simp [Except.map] at hdata
    | ok blocks =>
      rw [create_compact_node_info, hm] at hdata
      simp only [Except.map] at hdata
      injection hdata with hflatten
      refine ⟨(idb ++ padBytes 4 (n.ip.toList.map Char.toNat) ++
        [n.port.toNat / 256, n.port.toNat % 256]) ++ data, ?_, ?_⟩
      · rw [create_compact_node_info, List.mapM_cons]
        rw [hci, hm]
        simp only [Except.map, bind, Except.bind, pure, Except.pure]
        rw [List.flatten_cons, hflatten]
      · rw [parse_compact_cons _ _ hblock26, hdec, hparse, List.map_cons]

theorem c9_witness :
    ∃ data, create_compact_node_info
        [⟨"00000000000000000000000000000000000000ff", "1.2.3.4", 80⟩] =
        .ok data ∧
      parse_compact_node_info data =
        [⟨"00000000000000000000000000000000000000ff", "1.2.3.4", 80⟩].map
          expectedParsedNode :=
  c9_compact_roundtrip _ (by decide)
